import Mathlib

/-!
Verification of `computeSales.py`, a batch sales-aggregation program.

The program is embedded shallowly.  JSON/Python runtime values are the
inductive type `PyVal`; Python numbers (`int`/`float`, with `bool` a
subtype of `int`) are modelled exactly, floats as rationals; operations
that can raise a Python exception (`TypeError`, `KeyError`) return
`Except PyErr`.  Each Lean definition mirrors the Python function of the
same name.
-/

/-- A Python runtime value, as produced by `json.load` and manipulated by
the program.  Floats are modelled as exact rationals.  JSON objects are
association lists of string keys in insertion order; `json.load` keeps the
last occurrence of a duplicated key, which `dictGet` reproduces by giving
later bindings precedence. -/
inductive PyVal where
  | none : PyVal
  | bool : Bool → PyVal
  | int : Int → PyVal
  | float : ℚ → PyVal
  | str : String → PyVal
  | list : List PyVal → PyVal
  | dict : List (String × PyVal) → PyVal
deriving Repr

/-- A Python exception raised by one of the modelled operations,
carrying `str(e)`.  The message matters because `validate_sale_item`
catches `TypeError` and interpolates the exception text into its
`Invalid quantity value: {e}` reason; the texts follow CPython 3.12. -/
inductive PyErr where
  | typeError : String → PyErr
  | keyError : String → PyErr
deriving Repr, DecidableEq

/-- Python numeric coercion: the exact value of an `int`, `float` or
`bool` (`True == 1`, `False == 0`, because `bool` is a subclass of
`int`); `none` for every non-numeric value. -/
def toNum : PyVal → Option ℚ
  | .bool b => some (if b then 1 else 0)
  | .int n => some (n : ℚ)
  | .float q => some q
  | _ => Option.none

/-- The value of a Python `int`-like value (`int` or `bool`), used where
Python distinguishes integers from floats (sequence repetition,
`int * int`). -/
def intVal : PyVal → Option Int
  | .bool b => some (if b then 1 else 0)
  | .int n => some n
  | _ => Option.none

/-- `isinstance(v, (int, float))`.  `True` for `bool` values as well,
since `bool` is a subclass of `int` in Python. -/
def isNumber : PyVal → Bool
  | .bool _ => true
  | .int _ => true
  | .float _ => true
  | _ => false

/-- Whether a value may be used as a `dict` key: Python lists and dicts
are unhashable, and indexing a dictionary with one raises `TypeError`. -/
def hashable : PyVal → Bool
  | .list _ => false
  | .dict _ => false
  | _ => true

/-- `numEq a b`: Python `==` between values when at least one side is
numeric — numbers compare by exact value across `bool`/`int`/`float`,
and a number never equals a non-number. -/
def numEq (a b : PyVal) : Bool :=
  match toNum a, toNum b with
  | some p, some q => p == q
  | _, _ => false

/-- Python `==` on runtime values: `None` only equals `None`, strings by
content, numbers by value across numeric types, lists elementwise, and
dicts structurally (JSON objects are kept with unique keys in insertion
order; the program only ever compares hashable values and field-name
strings, so the dict branch is unreachable in the modelled paths). -/
def pyEq : PyVal → PyVal → Bool
  | .list (x :: xs), .list (y :: ys) => pyEq x y && pyEq (.list xs) (.list ys)
  | .list [], .list [] => true
  | .list _, .list _ => false
  | .dict ((k, v) :: xs), .dict ((k2, v2) :: ys) =>
      k == k2 && pyEq v v2 && pyEq (.dict xs) (.dict ys)
  | .dict [], .dict [] => true
  | .dict _, .dict _ => false
  | .str s, .str t => s == t
  | .none, .none => true
  | a, b => numEq a b

/-- Lookup in a JSON object.  Later bindings take precedence, mirroring
how `json.load` resolves duplicated keys inside one object. -/
def dictGet : List (String × PyVal) → String → Option PyVal
  | [], _ => Option.none
  | (k, v) :: rest, key =>
    match dictGet rest key with
    | some v2 => some v2
    | Option.none => if k == key then some v else Option.none

/-- Whether `needle` occurs as a contiguous substring of the character
list, as Python's `in` does on strings. -/
def charsInfix (needle : List Char) : List Char → Bool
  | [] => needle.isEmpty
  | c :: rest => needle.isPrefixOf (c :: rest) || charsInfix needle rest

/-- The bare Python type name of a value (`type(v).__name__`), as it
appears inside exception messages. -/
def pyTypeShort : PyVal → String
  | .none => "NoneType"
  | .bool _ => "bool"
  | .int _ => "int"
  | .float _ => "float"
  | .str _ => "str"
  | .list _ => "list"
  | .dict _ => "dict"

/-- The Python membership test `needle in container` for a string needle:
key membership for dicts, element equality for lists, substring test for
strings; `in` on any other value raises `TypeError`. -/
def pyContains (container : PyVal) (needle : String) : Except PyErr Bool :=
  match container with
  | .dict fields => .ok (fields.any (fun kv => kv.1 == needle))
  | .list xs => .ok (xs.any (fun x => pyEq (.str needle) x))
  | .str s => .ok (charsInfix needle.data s.data)
  | _ => .error (.typeError ("argument of type '" ++ pyTypeShort container
      ++ "' is not iterable"))

/-- The Python subscript `container[key]` for a string key: dict lookup
(`KeyError` when absent); lists and strings require integer indices and
raise `TypeError` on a string one; other values are not subscriptable. -/
def pySubscript (container : PyVal) (key : String) : Except PyErr PyVal :=
  match container with
  | .dict fields =>
    match dictGet fields key with
    | some v => .ok v
    | Option.none => .error (.keyError ("'" ++ key ++ "'"))
  | .str _ => .error (.typeError "string indices must be integers, not 'str'")
  | .list _ => .error (.typeError "list indices must be integers or slices, not str")
  | _ => .error (.typeError ("'" ++ pyTypeShort container
      ++ "' object is not subscriptable"))

/-- Python sequence repetition `s * n` for strings (negative counts give
the empty string; quantities here are already validated non-negative). -/
def strRepeat (s : String) (n : Int) : String :=
  String.join (List.replicate n.toNat s)

/-- Python sequence repetition `xs * n` for lists. -/
def listRepeat (xs : List PyVal) (n : Int) : List PyVal :=
  List.flatten (List.replicate n.toNat xs)

/-- Python multiplication `a * b` as used for `price * quantity`:
`int * int` stays an integer, any other numeric pair is a float,
a sequence times an `int`-like value repeats it, and every other
combination raises `TypeError`. -/
def pyMul (a b : PyVal) : Except PyErr PyVal :=
  match intVal a, intVal b with
  | some m, some n => .ok (.int (m * n))
  | _, _ =>
    match toNum a, toNum b with
    | some p, some q => .ok (.float (p * q))
    | _, _ =>
      match a, b with
      | .str s, b2 =>
        match intVal b2 with
        | some n => .ok (.str (strRepeat s n))
        | Option.none => .error (.typeError
            ("can't multiply sequence by non-int of type '" ++ pyTypeShort b2 ++ "'"))
      | a2, .str s =>
        match intVal a2 with
        | some n => .ok (.str (strRepeat s n))
        | Option.none => .error (.typeError
            ("can't multiply sequence by non-int of type '" ++ pyTypeShort a2 ++ "'"))
      | .list xs, b2 =>
        match intVal b2 with
        | some n => .ok (.list (listRepeat xs n))
        | Option.none => .error (.typeError
            ("can't multiply sequence by non-int of type '" ++ pyTypeShort b2 ++ "'"))
      | a2, .list xs =>
        match intVal a2 with
        | some n => .ok (.list (listRepeat xs n))
        | Option.none => .error (.typeError
            ("can't multiply sequence by non-int of type '" ++ pyTypeShort a2 ++ "'"))
      | _, _ => .error (.typeError ("unsupported operand type(s) for *: '"
          ++ pyTypeShort a ++ "' and '" ++ pyTypeShort b ++ "'"))

/-- The accumulation `total_cost += sale_cost`: `total_cost` is a float,
so adding a non-numeric `sale_cost` (a string or list produced by
sequence repetition) raises `TypeError`. -/
def pyAddFloat (total : ℚ) (v : PyVal) : Except PyErr ℚ :=
  match toNum v with
  | some q => .ok (total + q)
  | Option.none => .error (.typeError ("unsupported operand type(s) for +=: 'float' and '"
      ++ pyTypeShort v ++ "'"))

/-- `type(v)` as rendered inside an f-string. -/
def pyTypeName : PyVal → String
  | .none => "<class 'NoneType'>"
  | .bool _ => "<class 'bool'>"
  | .int _ => "<class 'int'>"
  | .float _ => "<class 'float'>"
  | .str _ => "<class 'str'>"
  | .list _ => "<class 'list'>"
  | .dict _ => "<class 'dict'>"

/-- Decimal rendering of a float value, used by `str()`/f-strings.  It is
exact whenever the denominator is a product of 2s and 5s — which covers
every value a binary float can take — and falls back to a fraction
otherwise. -/
def floatStr (q : ℚ) : String :=
  let rec mult (p : Nat) : Nat → Nat → Nat
    | 0, _ => 0
    | fuel + 1, d => if d % p == 0 && d > 0 then mult p fuel (d / p) + 1 else 0
  let d := q.den
  let e2 := mult 2 d d
  let e5 := mult 5 d d
  if 2 ^ e2 * 5 ^ e5 == d then
    let k := max e2 e5
    let scaled := q.num * (10 ^ k / (d : Int))
    let sign := if q.num < 0 then "-" else ""
    let a := scaled.natAbs
    let ip := a / 10 ^ k
    let fp := a % 10 ^ k
    let fpStr := toString fp
    let fpStr := String.mk (List.replicate (k - fpStr.length) '0') ++ fpStr
    let fpStr := -- Python prints at least one fractional digit
      let trimmed := String.mk (fpStr.data.reverse.dropWhile (· == '0')).reverse
      if trimmed.isEmpty then "0" else trimmed
    sign ++ toString ip ++ "." ++ fpStr
  else toString q.num ++ "/" ++ toString q.den

/-- `str(v)` as interpolated by the f-strings of the program (strings
appear bare, everything else via its repr).  Only `None`, booleans,
numbers and strings can reach the interpolation sites of the program;
containers are rendered in Python's display form for totality. -/
def pyStr : PyVal → String
  | .none => "None"
  | .bool b => if b then "True" else "False"
  | .int n => toString n
  | .float q => floatStr q
  | .str s => s
  | .list _ => "[...]"
  | .dict _ => "\x7b...\x7d"

/-- The price catalogue: the Python dict built by
`build_price_catalogue`, an association list whose keys are the raw
`title` values.  Keys are pairwise distinct under Python equality and
always hashable. -/
abbrev Catalogue := List (PyVal × PyVal)

/-- First-match lookup in the catalogue dict under Python equality
(insertion keeps keys unique, so at most one binding matches). -/
def catFind : Catalogue → PyVal → Option PyVal
  | [], _ => Option.none
  | (k2, v) :: rest, k => if pyEq k2 k then some v else catFind rest k

/-- The dict store `catalogue[title] = price`: if an equal key exists its
value is replaced in place, otherwise the binding is appended. -/
def catSet : Catalogue → PyVal → PyVal → Catalogue
  | [], k, v => [(k, v)]
  | (k2, v2) :: rest, k, v =>
    if pyEq k2 k then (k2, v) :: rest else (k2, v2) :: catSet rest k v

/-- The membership test `product_name not in price_catalogue` (negated):
hashing an unhashable value raises `TypeError` before any comparison. -/
def catContains (pc : Catalogue) (k : PyVal) : Except PyErr Bool :=
  if hashable k then .ok (catFind pc k).isSome
  else .error (.typeError ("unhashable type: '" ++ pyTypeShort k ++ "'"))

/-- The dict read `price_catalogue[product_name]`. -/
def catIndex (pc : Catalogue) (k : PyVal) : Except PyErr PyVal :=
  if hashable k then
    match catFind pc k with
    | some v => .ok v
    | Option.none => .error (.keyError (pyStr k))
  else .error (.typeError ("unhashable type: '" ++ pyTypeShort k ++ "'"))

/-- One iteration of the loop in `build_price_catalogue`:
`if "title" in product and "price" in product:
   catalogue[product["title"]] = product["price"]`
(`and` short-circuits, and the dict store checks hashability). -/
def buildStep (catalogue : Catalogue) (product : PyVal) : Except PyErr Catalogue :=
  match pyContains product "title" with
  | .error e => .error e
  | .ok false => .ok catalogue
  | .ok true =>
    match pyContains product "price" with
    | .error e => .error e
    | .ok false => .ok catalogue
    | .ok true =>
      match pySubscript product "title" with
      | .error e => .error e
      | .ok t =>
        match pySubscript product "price" with
        | .error e => .error e
        | .ok p =>
          if hashable t then .ok (catSet catalogue t p)
          else .error (.typeError ("unhashable type: '" ++ pyTypeShort t ++ "'"))

/-- The loop of `build_price_catalogue`, threading the catalogue. -/
def buildGo (catalogue : Catalogue) : List PyVal → Except PyErr Catalogue
  | [] => .ok catalogue
  | p :: rest =>
    match buildStep catalogue p with
    | .error e => .error e
    | .ok c2 => buildGo c2 rest

/-- `build_price_catalogue(products)`: fold the products into an
initially empty dict. -/
def build_price_catalogue (products : List PyVal) : Except PyErr Catalogue :=
  buildGo [] products

/-- `required_fields` of `validate_sale_item`. -/
def requiredFields : List String := ["SALE_ID", "SALE_Date", "Product", "Quantity"]

/-- The `for field in required_fields` loop of `validate_sale_item`:
the first field with `field not in sale`, or `none`; the membership test
itself raises on non-container sale values. -/
def findMissingField (sale : PyVal) : List String → Except PyErr (Option String)
  | [] => .ok Option.none
  | f :: rest =>
    match pyContains sale f with
    | .error e => .error e
    | .ok true => findMissingField sale rest
    | .ok false => .ok (some f)

/-- `validate_sale_item(sale, line_num)`: missing-field check in the
fixed order of `required_fields`, then — inside
`try/except (ValueError, TypeError)` — the subscript `sale["Quantity"]`,
the `isinstance` numeric check and the strict negativity check.  The only
statement of the `try` block that can raise is the subscript: a `str` or
`list` sale whose four field names pass the membership checks raises
`TypeError` there, which the handler turns into
`(False, "Invalid quantity value: {e}")`; `isinstance` and comparing a
number with `0` cannot raise.  A `KeyError` is not in the handler's
tuple so it would propagate, but it cannot occur after the membership
loop.  `line_num` is received and ignored, as in the source. -/
def validate_sale_item (sale : PyVal) (_line_num : Nat) : Except PyErr (Bool × String) :=
  match findMissingField sale requiredFields with
  | .error e => .error e
  | .ok (some f) => .ok (false, "Missing required field '" ++ f ++ "'")
  | .ok Option.none =>
    match pySubscript sale "Quantity" with
    | .error (.typeError m) => .ok (false, "Invalid quantity value: " ++ m)
    | .error (.keyError m) => .error (.keyError m)
    | .ok quantity =>
      if isNumber quantity = false then
        .ok (false, "Quantity must be a number, got " ++ pyTypeName quantity)
      else if (toNum quantity).getD 0 < 0 then
        .ok (false, "Quantity cannot be negative (got " ++ pyStr quantity ++ ")")
      else
        .ok (true, "")

/-- One iteration of the loop in `compute_sales` over `(idx, sale)`:
validate, report an invalid record, otherwise look the product up and
accumulate `price * quantity`.  The warning printed to stdout carries the
same string that is appended to `errors`. -/
def processSale (pc : Catalogue) (idx : Nat) (sale : PyVal) (total : ℚ)
    (errors : List String) : Except PyErr (ℚ × List String) :=
  match validate_sale_item sale idx with
  | .error e => .error e
  | .ok (is_valid, error_msg) =>
    if is_valid then
      match pySubscript sale "Product" with
      | .error e => .error e
      | .ok product_name =>
        match pySubscript sale "Quantity" with
        | .error e => .error e
        | .ok quantity =>
          match catContains pc product_name with
          | .error e => .error e
          | .ok found =>
            if found then
              match catIndex pc product_name with
              | .error e => .error e
              | .ok price =>
                match pyMul price quantity with
                | .error e => .error e
                | .ok sale_cost =>
                  match pyAddFloat total sale_cost with
                  | .error e => .error e
                  | .ok total2 => .ok (total2, errors)
            else
              .ok (total, errors ++ ["Sale #" ++ toString idx ++ ": Product '"
                ++ pyStr product_name ++ "' not found in catalogue"])
    else
      .ok (total, errors ++ ["Sale #" ++ toString idx ++ ": " ++ error_msg])

/-- The `for idx, sale in enumerate(sales_records, 1)` loop of
`compute_sales`, threading `total_cost` and `errors`. -/
def computeGo (pc : Catalogue) : Nat → List PyVal → ℚ → List String →
    Except PyErr (ℚ × List String)
  | _, [], total, errors => .ok (total, errors)
  | idx, sale :: rest, total, errors =>
    match processSale pc idx sale total errors with
    | .error e => .error e
    | .ok (total2, errors2) => computeGo pc (idx + 1) rest total2 errors2

/-- `compute_sales(price_catalogue, sales_records)`: single pass with
`total_cost = 0.0`, `errors = []`, records numbered from 1. -/
def compute_sales (pc : Catalogue) (sales_records : List PyVal) :
    Except PyErr (ℚ × List String) :=
  computeGo pc 1 sales_records 0 []

/-- `processedCount`: in `main` the reported count is simply
`len(sales_records)`, independent of validity. -/
def processedCount (sales_records : List PyVal) : Nat :=
  sales_records.length

/-- Classification of one record by the pass of `compute_sales`: `true`
exactly when the record passes `validate_sale_item` and its product is
found in the catalogue, i.e. when its cost is accumulated. -/
def isCosted (pc : Catalogue) (idx : Nat) (sale : PyVal) : Bool :=
  match validate_sale_item sale idx with
  | .ok (true, _) =>
    match pySubscript sale "Product" with
    | .ok pn =>
      match catContains pc pn with
      | .ok found => found
      | .error _ => false
    | .error _ => false
  | _ => false

/-- The exact amount a record adds to `total_cost`: `price * quantity`
for a record that passes every check, `0` otherwise. -/
def contribution (pc : Catalogue) (idx : Nat) (sale : PyVal) : ℚ :=
  match validate_sale_item sale idx with
  | .ok (true, _) =>
    match pySubscript sale "Product", pySubscript sale "Quantity" with
    | .ok pn, .ok quantity =>
      match catContains pc pn with
      | .ok true =>
        match catIndex pc pn with
        | .ok price => (toNum price).getD 0 * (toNum quantity).getD 0
        | .error _ => 0
      | _ => 0
    | _, _ => 0
  | _ => 0

/-- The error string a record appends, when it appends one: the
formatted validation message for an invalid record, or the
product-not-found message for a valid record whose product is absent. -/
def saleError (pc : Catalogue) (idx : Nat) (sale : PyVal) : Option String :=
  match validate_sale_item sale idx with
  | .ok (false, msg) => some ("Sale #" ++ toString idx ++ ": " ++ msg)
  | .ok (true, _) =>
    match pySubscript sale "Product" with
    | .ok pn =>
      match catContains pc pn with
      | .ok false => some ("Sale #" ++ toString idx ++ ": Product '"
          ++ pyStr pn ++ "' not found in catalogue")
      | _ => Option.none
    | .error _ => Option.none
  | .error _ => Option.none

/-- The total of the per-record contributions of a record list, numbered
from `idx`. -/
def specTotal (pc : Catalogue) : Nat → List PyVal → ℚ
  | _, [] => 0
  | idx, sale :: rest => contribution pc idx sale + specTotal pc (idx + 1) rest

/-- The per-record error strings of a record list in input order,
numbered from `idx`. -/
def specErrors (pc : Catalogue) : Nat → List PyVal → List String
  | _, [] => []
  | idx, sale :: rest => (saleError pc idx sale).toList ++ specErrors pc (idx + 1) rest

/-- How many records of the list are successfully costed. -/
def costedCount (pc : Catalogue) : Nat → List PyVal → Nat
  | _, [] => 0
  | idx, sale :: rest =>
    (if isCosted pc idx sale then 1 else 0) + costedCount pc (idx + 1) rest

/-- The `title` and `price` fields of a catalogue entry, when the entry
is an object carrying both. -/
def entryTitlePrice (product : PyVal) : Option (PyVal × PyVal) :=
  match product with
  | .dict fields =>
    match dictGet fields "title", dictGet fields "price" with
    | some t, some p => some (t, p)
    | _, _ => Option.none
  | _ => Option.none

/-- The last-write-wins view of the product list: the price of the last
entry that has both fields and whose title equals `t` under Python
equality. -/
def findLastPrice : List PyVal → PyVal → Option PyVal
  | [], _ => Option.none
  | p :: rest, t =>
    match findLastPrice rest t with
    | some v => some v
    | Option.none =>
      match entryTitlePrice p with
      | some (tt, pv) => if pyEq tt t then some pv else Option.none
      | Option.none => Option.none

/-- Every price stored in the catalogue is a number
(`bool`/`int`/`float`). -/
def pricesNumeric (pc : Catalogue) : Prop :=
  ∀ kv ∈ pc, (toNum kv.2).isSome

/-- Every price stored in the catalogue is a non-negative number. -/
def pricesNonneg (pc : Catalogue) : Prop :=
  ∀ kv ∈ pc, ∃ q, toNum kv.2 = some q ∧ 0 ≤ q

/-- A sale record shape the program completes without an exception: a
container value — string, array, or JSON object — since the membership
test `field not in sale` raises `TypeError` uncaught on anything else;
and, when the record is an object carrying a `Product` value, that value
is hashable (an unhashable one makes the catalogue membership test
raise).  String and array records need no further condition: the caught
subscript `TypeError` turns them into per-record errors. -/
def saleWellShaped (sale : PyVal) : Prop :=
  (∃ s, sale = PyVal.str s) ∨ (∃ xs, sale = PyVal.list xs) ∨
  (∃ fields, sale = PyVal.dict fields ∧
    ∀ pv, dictGet fields "Product" = some pv → hashable pv = true)

/-- Round-half-even of a rational, as Python's fixed-point formatting
applies to the scaled value. -/
def rhe (q : ℚ) : ℤ :=
  let f := ⌊q⌋
  let r := q - f
  if r < 1 / 2 then f
  else if 1 / 2 < r then f + 1
  else if f % 2 = 0 then f else f + 1

/-- `f"{q:.k f}"`: fixed-point rendering with `k` decimal places. -/
def formatFixed (decimals : Nat) (q : ℚ) : String :=
  let scaled := rhe (q * (10 : ℚ) ^ decimals)
  let sign := if q < 0 then "-" else ""
  let a := scaled.natAbs
  let ip := a / 10 ^ decimals
  let fp := a % 10 ^ decimals
  let fpStr := toString fp
  let fpStr := String.mk (List.replicate (decimals - fpStr.length) '0') ++ fpStr
  sign ++ toString ip ++ (if decimals = 0 then "" else "." ++ fpStr)

/-- Insert thousands separators into a digit string (input reversed). -/
def groupAux : List Char → List Char
  | a :: b :: c :: d :: rest => a :: b :: c :: ',' :: groupAux (d :: rest)
  | l => l

/-- Group a digit string in threes from the right with commas. -/
def groupDigits (s : String) : String :=
  String.mk (groupAux s.data.reverse).reverse

/-- `format_currency(amount)`: `f"${amount:,.2f}"` — leading `$`,
thousands separators, exactly two decimals. -/
def format_currency (amount : ℚ) : String :=
  let scaled := rhe (amount * 100)
  let sign := if amount < 0 then "-" else ""
  let a := scaled.natAbs
  "$" ++ sign ++ groupDigits (toString (a / 100))
    ++ "." ++ (if a % 100 < 10 then "0" else "") ++ toString (a % 100)

/-- The 70-character `=` separator used by the reporter. -/
def sepLine : String := String.mk (List.replicate 70 '=')

/-- The lines `save_results` writes to `SalesResults.txt`, in order: the
header block, the three summary fields, and either the enumerated error
block or the no-errors notice.  Index 6 is the `Execution Time` line,
the only one depending on the elapsed time. -/
def reportLines (total_cost elapsed_time : ℚ) (sales_count : Nat)
    (errors : List String) : List String :=
  [sepLine, "SALES COMPUTATION RESULTS", sepLine, "",
   "Total Sales Processed: " ++ toString sales_count,
   "Total Cost: " ++ format_currency total_cost]
  ++ ["Execution Time: " ++ formatFixed 4 elapsed_time ++ " seconds"]
  ++ [""]
  ++ (if errors.isEmpty then ["No errors encountered during processing."]
      else [sepLine, "ERRORS FOUND: " ++ toString errors.length, sepLine]
        ++ errors.map (fun e => "  - " ++ e))

/-- The full byte content `save_results` writes: each line terminated by
a newline. -/
def save_results_content (total_cost elapsed_time : ℚ) (sales_count : Nat)
    (errors : List String) : String :=
  String.join ((reportLines total_cost elapsed_time sales_count errors).map
    (fun l => l ++ "\n"))

/-- Canonical key of a hashable value: numbers collapse to their exact
value, strings and `None` stand alone.  Meaningless on unhashable
values, which never reach a dict-key position. -/
def hkey : PyVal → ℚ ⊕ String ⊕ Unit
  | .bool b => .inl (if b then 1 else 0)
  | .int n => .inl (n : ℚ)
  | .float q => .inl q
  | .str s => .inr (.inl s)
  | _ => .inr (.inr ())

theorem pyEq_hashable {a b : PyVal} (h : pyEq a b = true) :
    hashable a = hashable b := by
  cases a <;> cases b <;> simp_all [pyEq, numEq, toNum, hashable]

theorem pyEq_iff_hkey {a b : PyVal} (ha : hashable a = true)
    (hb : hashable b = true) : pyEq a b = true ↔ hkey a = hkey b := by
  cases a <;> cases b <;> simp_all [pyEq, numEq, toNum, hashable, hkey]

theorem pyEq_symm_h {a b : PyVal} (ha : hashable a = true)
    (h : pyEq a b = true) : pyEq b a = true := by
  have hb := (pyEq_hashable h) ▸ ha
  exact (pyEq_iff_hkey hb ha).2 ((pyEq_iff_hkey ha hb).1 h).symm

theorem pyEq_trans_h {a b c : PyVal} (ha : hashable a = true)
    (h1 : pyEq a b = true) (h2 : pyEq b c = true) : pyEq a c = true := by
  have hb := (pyEq_hashable h1) ▸ ha
  have hc := (pyEq_hashable h2) ▸ hb
  exact (pyEq_iff_hkey ha hc).2
    (((pyEq_iff_hkey ha hb).1 h1).trans ((pyEq_iff_hkey hb hc).1 h2))

theorem catFind_catSet (c : Catalogue) (k v t : PyVal) (hk : hashable k = true) :
    catFind (catSet c k v) t = if pyEq k t then some v else catFind c t := by
  induction c with
  | nil => simp [catSet, catFind]
  | cons kv rest ih =>
    obtain ⟨k2, v2⟩ := kv
    by_cases h2 : pyEq k2 k = true
    · have hk2 : hashable k2 = true := (pyEq_hashable h2) ▸ hk
      simp only [catSet, h2, if_true, catFind]
      by_cases ht : pyEq k t = true
      · have : pyEq k2 t = true := pyEq_trans_h hk2 h2 ht
        simp [catFind, this, ht]
      · have : pyEq k2 t = false := by
          by_contra hne
          have h3 : pyEq k2 t = true := by simpa using hne
          exact ht (pyEq_trans_h hk (pyEq_symm_h hk2 h2) h3)
        simp [catFind, this, ht]
    · have h2f : pyEq k2 k = false := by simpa using h2
      simp only [catSet, h2f, Bool.false_eq_true, if_false, catFind]
      by_cases h3 : pyEq k2 t = true
      · have hktf : pyEq k t = false := by
          by_contra hne
          have hkt : pyEq k t = true := by simpa using hne
          have ht : hashable t = true := (pyEq_hashable hkt) ▸ hk
          have hk2 : hashable k2 = true := (pyEq_hashable h3).trans ht
          exact h2 (pyEq_trans_h hk2 h3 (pyEq_symm_h hk hkt))
        simp [h3, hktf]
      · have h3f : pyEq k2 t = false := by simpa using h3
        simp [h3f, ih]

theorem catFind_mem {c : Catalogue} {k v : PyVal} (h : catFind c k = some v) :
    ∃ kv ∈ c, kv.2 = v := by
  induction c with
  | nil => simp [catFind] at h
  | cons kv2 rest ih =>
    obtain ⟨k2, v2⟩ := kv2
    by_cases h2 : pyEq k2 k = true
    · simp [catFind, h2] at h
      exact ⟨(k2, v2), by simp, by simp [h]⟩
    · have h2f : pyEq k2 k = false := by simpa using h2
      simp [catFind, h2f] at h
      obtain ⟨kv, hm, he⟩ := ih h
      exact ⟨kv, by simp [hm], he⟩

theorem dictGet_any (fields : List (String × PyVal)) (k : String) :
    (fields.any (fun kv => kv.1 == k)) = (dictGet fields k).isSome := by
  induction fields with
  | nil => simp [dictGet]
  | cons kv rest ih =>
    obtain ⟨k2, v2⟩ := kv
    simp only [List.any_cons, dictGet]
    cases hr : dictGet rest k with
    | some v3 => simp [hr ▸ ih]
    | none =>
      rw [hr] at ih
      by_cases h2 : k2 = k <;> simp [h2, ← ih]

theorem findMissingField_dict (fields : List (String × PyVal)) (fs : List String) :
    findMissingField (.dict fields) fs =
      .ok (fs.find? (fun f => (dictGet fields f).isNone)) := by
  induction fs with
  | nil => simp [findMissingField]
  | cons f rest ih =>
    simp only [findMissingField, pyContains, dictGet_any, List.find?]
    cases h : dictGet fields f with
    | some v => simp [h, ih, Option.isNone]
    | none => simp [h, Option.isNone]

theorem validate_dict_missing (fields : List (String × PyVal)) (n : Nat) (f : String)
    (h : requiredFields.find? (fun g => (dictGet fields g).isNone) = some f) :
    validate_sale_item (.dict fields) n =
      .ok (false, "Missing required field '" ++ f ++ "'") := by
  simp [validate_sale_item, findMissingField_dict, h]

theorem validate_dict_allPresent (fields : List (String × PyVal)) (n : Nat) (q : PyVal)
    (h : requiredFields.find? (fun g => (dictGet fields g).isNone) = Option.none)
    (hq : dictGet fields "Quantity" = some q) :
    validate_sale_item (.dict fields) n =
      (if isNumber q = false then
        .ok (false, "Quantity must be a number, got " ++ pyTypeName q)
      else if (toNum q).getD 0 < 0 then
        .ok (false, "Quantity cannot be negative (got " ++ pyStr q ++ ")")
      else .ok (true, "")) := by
  simp [validate_sale_item, findMissingField_dict, h, pySubscript, hq]

theorem intVal_toNum {v : PyVal} {m : Int} (h : intVal v = some m) :
    toNum v = some (m : ℚ) := by
  cases v with
  | bool b =>
    cases b <;> simp only [intVal, Option.some.injEq] at h <;>
      subst h <;> simp [toNum]
  | int n =>
    simp only [intVal, Option.some.injEq] at h
    subst h
    simp [toNum]
  | float q => simp [intVal] at h
  | none => simp [intVal] at h
  | str s => simp [intVal] at h
  | list l => simp [intVal] at h
  | dict d => simp [intVal] at h

theorem pyMul_add_ok {price qv cost : PyVal} {total tc : ℚ}
    (hm : pyMul price qv = .ok cost) (ha : pyAddFloat total cost = .ok tc) :
    tc = total + (toNum price).getD 0 * (toNum qv).getD 0 := by
  unfold pyMul at hm
  cases hip : intVal price with
  | some m =>
    cases hiq : intVal qv with
    | some n =>
      rw [hip, hiq] at hm
      simp only [Except.ok.injEq] at hm
      subst hm
      simp only [pyAddFloat, toNum, Except.ok.injEq] at ha
      simp only [intVal_toNum hip, intVal_toNum hiq, Option.getD_some]
      push_cast at ha ⊢
      linarith
    | none =>
      rw [hip, hiq] at hm
      cases hnq : toNum qv with
      | some q =>
        rw [intVal_toNum hip, hnq] at hm
        simp only [Except.ok.injEq] at hm
        subst hm
        simp only [pyAddFloat, toNum, Except.ok.injEq] at ha
        simp only [intVal_toNum hip, hnq, Option.getD_some]
        linarith
      | none =>
        rw [hnq] at hm
        exfalso
        cases price <;> cases qv <;>
            simp_all [toNum, intVal] <;>
          (try subst hm) <;> (try simp [pyAddFloat, toNum] at ha)
  | none =>
    rw [hip] at hm
    cases hnp : toNum price with
    | some p =>
      cases hnq : toNum qv with
      | some q =>
        rw [hnp, hnq] at hm
        simp only [Except.ok.injEq] at hm
        subst hm
        simp only [pyAddFloat, toNum, Except.ok.injEq] at ha
        simp only [hnp, hnq, Option.getD_some]
        linarith
      | none =>
        rw [hnp, hnq] at hm
        exfalso
        cases price <;> cases qv <;> simp_all [toNum, intVal]
    | none =>
      rw [hnp] at hm
      exfalso
      cases price <;> cases qv <;>
          simp_all [toNum, intVal] <;>
        (try subst hm) <;> (try simp [pyAddFloat, toNum] at ha)

theorem processSale_ok {pc : Catalogue} {idx : Nat} {sale : PyVal} {total : ℚ}
    {errors : List String} {t2 : ℚ} {e2 : List String}
    (h : processSale pc idx sale total errors = .ok (t2, e2)) :
    t2 = total + contribution pc idx sale ∧
    e2 = errors ++ (saleError pc idx sale).toList ∧
    (saleError pc idx sale).isSome = !(isCosted pc idx sale) := by
  unfold processSale at h
  cases hv : validate_sale_item sale idx with
  | error e => simp [hv] at h
  | ok vr =>
    obtain ⟨isv, msg⟩ := vr
    cases isv with
    | false =>
      simp only [hv, Bool.false_eq_true, if_false] at h
      rw [Except.ok.injEq, Prod.mk.injEq] at h
      obtain ⟨rfl, rfl⟩ := h
      refine ⟨by simp [contribution, hv], by simp [saleError, hv],
        by simp [saleError, isCosted, hv]⟩
    | true =>
      simp only [hv, if_true] at h
      cases hp : pySubscript sale "Product" with
      | error e => simp [hp] at h
      | ok pn =>
        cases hq : pySubscript sale "Quantity" with
        | error e => simp [hp, hq] at h
        | ok qv =>
          simp only [hp, hq] at h
          cases hc : catContains pc pn with
          | error e => simp [hc] at h
          | ok found =>
            cases found with
            | false =>
              simp only [hc, Bool.false_eq_true, if_false] at h
              rw [Except.ok.injEq, Prod.mk.injEq] at h
              obtain ⟨rfl, rfl⟩ := h
              refine ⟨by simp [contribution, hv, hp, hq, hc],
                by simp [saleError, hv, hp, hc],
                by simp [saleError, isCosted, hv, hp, hc]⟩
            | true =>
              simp only [hc, if_true] at h
              cases hi : catIndex pc pn with
              | error e => simp [hi] at h
              | ok price =>
                cases hm : pyMul price qv with
                | error e => simp [hi, hm] at h
                | ok cost =>
                  simp only [hi, hm] at h
                  cases ha : pyAddFloat total cost with
                  | error e => simp [ha] at h
                  | ok tc =>
                    simp only [ha] at h
                    rw [Except.ok.injEq, Prod.mk.injEq] at h
                    obtain ⟨rfl, rfl⟩ := h
                    refine ⟨?_, by simp [saleError, hv, hp, hc],
                      by simp [saleError, isCosted, hv, hp, hc]⟩
                    simp only [contribution, hv, hp, hq, hc, hi]
                    exact pyMul_add_ok hm ha

theorem computeGo_ok {pc : Catalogue} {sales : List PyVal} {idx : Nat} {total : ℚ}
    {errors : List String} {t2 : ℚ} {e2 : List String}
    (h : computeGo pc idx sales total errors = .ok (t2, e2)) :
    t2 = total + specTotal pc idx sales ∧
    e2 = errors ++ specErrors pc idx sales ∧
    (specErrors pc idx sales).length + costedCount pc idx sales = sales.length := by
  induction sales generalizing idx total errors with
  | nil =>
    simp only [computeGo, Except.ok.injEq, Prod.mk.injEq] at h
    obtain ⟨rfl, rfl⟩ := h
    simp [specTotal, specErrors, costedCount]
  | cons sale rest ih =>
    unfold computeGo at h
    cases hs : processSale pc idx sale total errors with
    | error e => simp [hs] at h
    | ok pr =>
      obtain ⟨ta, ea⟩ := pr
      simp only [hs] at h
      obtain ⟨h1, h2, h3⟩ := processSale_ok hs
      obtain ⟨g1, g2, g3⟩ := ih h
      subst h1 h2
      refine ⟨by rw [g1]; simp [specTotal]; ring, by rw [g2]; simp [specErrors], ?_⟩
      simp only [costedCount, specErrors, List.length_cons, List.length_append]
      cases hse : saleError pc idx sale with
      | some s =>
        rw [hse] at h3
        have hic : isCosted pc idx sale = false := by
          cases hx : isCosted pc idx sale <;> rw [hx] at h3 <;> simp_all
        simp only [hic, Bool.false_eq_true, if_false, Option.toList,
          List.length_singleton]
        omega
      | none =>
        rw [hse] at h3
        have hic : isCosted pc idx sale = true := by
          cases hx : isCosted pc idx sale <;> rw [hx] at h3 <;> simp_all
        simp only [hic, if_true, Option.toList, List.length_nil]
        omega

theorem processSale_invalid {pc : Catalogue} {idx : Nat} {sale : PyVal}
    {msg : String} (total : ℚ) (errors : List String)
    (hv : validate_sale_item sale idx = .ok (false, msg)) :
    processSale pc idx sale total errors =
      .ok (total, errors ++ ["Sale #" ++ toString idx ++ ": " ++ msg]) := by
  unfold processSale
  simp [hv]

theorem buildStep_ok {c c2 : Catalogue} {p : PyVal} (h : buildStep c p = .ok c2) :
    ∀ t, catFind c2 t =
      match entryTitlePrice p with
      | some (tt, pv) => if pyEq tt t then some pv else catFind c t
      | Option.none => catFind c t := by
  intro t
  unfold buildStep at h
  cases p with
  | dict fields =>
    simp only [pyContains, dictGet_any] at h
    cases ht : dictGet fields "title" with
    | none =>
      simp only [ht, Option.isSome_none, Bool.false_eq_true, if_false] at h
      rw [Except.ok.injEq] at h
      subst h
      simp [entryTitlePrice, ht]
    | some t0 =>
      simp only [ht, Option.isSome_some, if_true] at h
      cases hp : dictGet fields "price" with
      | none =>
        simp only [hp, Option.isSome_none, Bool.false_eq_true, if_false] at h
        rw [Except.ok.injEq] at h
        subst h
        simp [entryTitlePrice, ht, hp]
      | some pv0 =>
        simp only [hp, Option.isSome_some, if_true, pySubscript, ht] at h
        by_cases hh : hashable t0 = true
        · simp only [hh, if_true] at h
          rw [Except.ok.injEq] at h
          subst h
          simp only [entryTitlePrice, ht, hp]
          exact catFind_catSet c t0 pv0 t hh
        · simp [hh] at h
  | none => simp [pyContains] at h
  | bool b => simp [pyContains] at h
  | int n => simp [pyContains] at h
  | float q => simp [pyContains] at h
  | str s =>
    -- a string product can pass the `in` checks but raises on subscript
    simp only [pyContains] at h
    by_cases h1 : charsInfix "title".data s.data = true
    · simp only [h1, if_true] at h
      by_cases h2 : charsInfix "price".data s.data = true
      · simp [h1, h2, pySubscript] at h
      · simp only [h2] at h
        simp at h
        subst h
        simp [entryTitlePrice]
    · simp only [h1] at h
      simp at h
      subst h
      simp [entryTitlePrice]
  | list xs =>
    simp only [pyContains] at h
    by_cases h1 : xs.any (fun x => pyEq (.str "title") x) = true
    · simp only [h1, if_true] at h
      by_cases h2 : xs.any (fun x => pyEq (.str "price") x) = true
      · simp [h1, h2, pySubscript] at h
      · simp only [h2] at h
        simp at h
        subst h
        simp [entryTitlePrice]
    · simp only [h1] at h
      simp at h
      subst h
      simp [entryTitlePrice]

theorem buildGo_ok {products : List PyVal} {c c2 : Catalogue}
    (h : buildGo c products = .ok c2) :
    ∀ t, catFind c2 t =
      match findLastPrice products t with
      | some v => some v
      | Option.none => catFind c t := by
  induction products generalizing c with
  | nil =>
    simp only [buildGo, Except.ok.injEq] at h
    subst h
    simp [findLastPrice]
  | cons p rest ih =>
    intro t
    unfold buildGo at h
    cases hs : buildStep c p with
    | error e => simp [hs] at h
    | ok c1 =>
      simp only [hs] at h
      have hstep := buildStep_ok hs t
      have hrest := ih h t
      unfold findLastPrice
      cases hr : findLastPrice rest t with
      | some v => simp only [hr] at hrest; simp [hrest]
      | none =>
        simp only [hr] at hrest
        rw [hrest, hstep]
        cases he : entryTitlePrice p with
        | none => simp
        | some tp =>
          obtain ⟨tt, pv⟩ := tp
          by_cases hq : pyEq tt t = true <;> simp [hq]

theorem isNumber_toNum {v : PyVal} (h : isNumber v = true) :
    ∃ q, toNum v = some q := by
  cases v <;> simp_all [isNumber, toNum]

theorem pyMul_numeric {a b : PyVal} {p q : ℚ} (ha : toNum a = some p)
    (hb : toNum b = some q) : ∃ c, pyMul a b = .ok c ∧ toNum c = some (p * q) := by
  cases hia : intVal a with
  | some m =>
    cases hib : intVal b with
    | some n =>
      refine ⟨.int (m * n), by simp [pyMul, hia, hib], ?_⟩
      rw [intVal_toNum hia, Option.some.injEq] at ha
      rw [intVal_toNum hib, Option.some.injEq] at hb
      simp only [toNum, ← ha, ← hb, Option.some.injEq]
      push_cast
      ring
    | none =>
      exact ⟨.float (p * q), by simp [pyMul, hia, hib, ha, hb], by simp [toNum]⟩
  | none =>
    exact ⟨.float (p * q), by simp [pyMul, hia, ha, hb], by simp [toNum]⟩

theorem catIndex_ok {pc : Catalogue} {k v : PyVal} (h : catIndex pc k = .ok v) :
    hashable k = true ∧ catFind pc k = some v := by
  unfold catIndex at h
  by_cases hh : hashable k = true
  · simp only [hh, if_true] at h
    cases hf : catFind pc k with
    | some w =>
      rw [hf] at h
      simp only [Except.ok.injEq] at h
      exact ⟨hh, by rw [h]⟩
    | none => rw [hf] at h; simp at h
  · simp [hh] at h

theorem validate_true_quantity {sale : PyVal} {n : Nat} {s : String} {qv : PyVal}
    (hv : validate_sale_item sale n = .ok (true, s))
    (hq : pySubscript sale "Quantity" = .ok qv) :
    isNumber qv = true ∧ 0 ≤ (toNum qv).getD 0 := by
  unfold validate_sale_item at hv
  cases hm : findMissingField sale requiredFields with
  | error e => simp [hm] at hv
  | ok o =>
    cases o with
    | some f => simp [hm] at hv
    | none =>
      simp only [hm, hq] at hv
      split at hv
      · simp at hv
      · split at hv
        · simp at hv
        · rename_i h1 h2
          exact ⟨by simpa using h1, by linarith [not_lt.mp h2]⟩

/-- On a container sale value (where the membership test returns rather
than raises) the missing-field loop cannot raise. -/
theorem findMissingField_container {sale : PyVal}
    (h : ∀ f : String, ∃ b, pyContains sale f = .ok b) :
    ∀ fs, ∃ o, findMissingField sale fs = .ok o := by
  intro fs
  induction fs with
  | nil => exact ⟨Option.none, rfl⟩
  | cons f rest ih =>
    obtain ⟨b, hb⟩ := h f
    cases b with
    | false => exact ⟨some f, by simp [findMissingField, hb]⟩
    | true =>
      obtain ⟨o, ho⟩ := ih
      exact ⟨o, by simp [findMissingField, hb, ho]⟩

/-- A string sale record is always classified Invalid without raising:
either some field name is not a substring, or all four are and the
subscript `TypeError` is caught, giving the `Invalid quantity value`
reason. -/
theorem validate_str_invalid (s : String) (n : Nat) :
    ∃ msg, validate_sale_item (.str s) n = .ok (false, msg) := by
  obtain ⟨o, ho⟩ :=
    @findMissingField_container (.str s) (fun f => ⟨_, rfl⟩) requiredFields
  cases o with
  | some f =>
    exact ⟨"Missing required field '" ++ f ++ "'",
      by simp [validate_sale_item, ho]⟩
  | none =>
    exact ⟨"Invalid quantity value: "
        ++ "string indices must be integers, not 'str'",
      by simp [validate_sale_item, ho, pySubscript]⟩

/-- A list sale record is always classified Invalid without raising, for
the same reason as a string one. -/
theorem validate_list_invalid (xs : List PyVal) (n : Nat) :
    ∃ msg, validate_sale_item (.list xs) n = .ok (false, msg) := by
  obtain ⟨o, ho⟩ :=
    @findMissingField_container (.list xs) (fun f => ⟨_, rfl⟩) requiredFields
  cases o with
  | some f =>
    exact ⟨"Missing required field '" ++ f ++ "'",
      by simp [validate_sale_item, ho]⟩
  | none =>
    exact ⟨"Invalid quantity value: "
        ++ "list indices must be integers or slices, not str",
      by simp [validate_sale_item, ho, pySubscript]⟩

theorem processSale_no_raise {pc : Catalogue} {idx : Nat} {sale : PyVal}
    (total : ℚ) (errors : List String)
    (hpc : pricesNumeric pc) (hs : saleWellShaped sale) :
    ∃ r, processSale pc idx sale total errors = .ok r := by
  rcases hs with ⟨s, rfl⟩ | ⟨xs, rfl⟩ | ⟨fields, rfl, hprod⟩
  · obtain ⟨msg, hv⟩ := validate_str_invalid s idx
    exact ⟨_, processSale_invalid total errors hv⟩
  · obtain ⟨msg, hv⟩ := validate_list_invalid xs idx
    exact ⟨_, processSale_invalid total errors hv⟩
  unfold processSale
  cases hf : requiredFields.find? (fun g => (dictGet fields g).isNone) with
  | some f =>
    refine ⟨(total, errors ++ ["Sale #" ++ toString idx ++ ": "
      ++ ("Missing required field '" ++ f ++ "'")]), ?_⟩
    rw [validate_dict_missing fields idx f hf]
    simp
  | none =>
    have hall : ∀ g ∈ requiredFields, dictGet fields g ≠ Option.none := by
      intro g hg
      simpa using List.find?_eq_none.mp hf g hg
    obtain ⟨qv, hq⟩ : ∃ v, dictGet fields "Quantity" = some v := by
      have := hall "Quantity" (by simp [requiredFields])
      cases hx : dictGet fields "Quantity" <;> simp_all
    obtain ⟨pn, hpn⟩ : ∃ v, dictGet fields "Product" = some v := by
      have := hall "Product" (by simp [requiredFields])
      cases hx : dictGet fields "Product" <;> simp_all
    rw [validate_dict_allPresent fields idx qv hf hq]
    by_cases hnum : isNumber qv = false
    · refine ⟨(total, errors ++ ["Sale #" ++ toString idx ++ ": "
        ++ ("Quantity must be a number, got " ++ pyTypeName qv)]), ?_⟩
      simp [hnum]
    · by_cases hneg : (toNum qv).getD 0 < 0
      · refine ⟨(total, errors ++ ["Sale #" ++ toString idx ++ ": "
          ++ ("Quantity cannot be negative (got " ++ pyStr qv ++ ")")]), ?_⟩
        simp [hnum, hneg]
      · simp only [hnum, Bool.false_eq_true, if_false, hneg, if_true]
        simp only [pySubscript, hpn, hq]
        have hhash : hashable pn = true := hprod pn hpn
        simp only [catContains, hhash, if_true]
        cases hfound : (catFind pc pn).isSome with
        | false =>
          refine ⟨(total, errors ++ ["Sale #" ++ toString idx ++ ": Product '"
            ++ pyStr pn ++ "' not found in catalogue"]), ?_⟩
          simp [hfound]
        | true =>
          obtain ⟨pv, hpv⟩ : ∃ v, catFind pc pn = some v := by
            cases hx : catFind pc pn <;> simp_all
          have hidx : catIndex pc pn = .ok pv := by simp [catIndex, hhash, hpv]
          obtain ⟨pq, hpq⟩ : ∃ q, toNum pv = some q := by
            obtain ⟨kv, hkv, hkv2⟩ := catFind_mem hpv
            have := hpc kv hkv
            rw [hkv2] at this
            cases hx : toNum pv <;> simp_all
          obtain ⟨qq, hqq⟩ := isNumber_toNum (show isNumber qv = true by simpa using hnum)
          obtain ⟨cost, hcost, hcn⟩ := pyMul_numeric hpq hqq
          refine ⟨(total + pq * qq, errors), ?_⟩
          simp [hfound, hidx, hcost, pyAddFloat, hcn]

theorem computeGo_no_raise {pc : Catalogue} {sales : List PyVal} {idx : Nat}
    {total : ℚ} {errors : List String}
    (hpc : pricesNumeric pc) (hs : ∀ s ∈ sales, saleWellShaped s) :
    ∃ r, computeGo pc idx sales total errors = .ok r := by
  induction sales generalizing idx total errors with
  | nil => exact ⟨_, rfl⟩
  | cons sale rest ih =>
    obtain ⟨⟨t1, e1⟩, h1⟩ :=
      processSale_no_raise total errors hpc (hs sale (by simp))
    obtain ⟨r, hr⟩ := ih (fun s hsm => hs s (by simp [hsm]))
    exact ⟨r, by unfold computeGo; rw [h1]; exact hr⟩

theorem contribution_nonneg {pc : Catalogue} {idx : Nat} {sale : PyVal}
    (hpc : pricesNonneg pc) : 0 ≤ contribution pc idx sale := by
  unfold contribution
  cases hv : validate_sale_item sale idx with
  | error e => simp
  | ok vr =>
    obtain ⟨isv, msg⟩ := vr
    cases isv with
    | false => simp
    | true =>
      cases hp : pySubscript sale "Product" with
      | error e => simp
      | ok pn =>
        cases hq : pySubscript sale "Quantity" with
        | error e => simp
        | ok qv =>
          cases hc : catContains pc pn with
          | error e => simp [hc]
          | ok found =>
            cases found with
            | false => simp [hc]
            | true =>
              cases hi : catIndex pc pn with
              | error e => simp [hc, hi]
              | ok price =>
                simp only [hc, hi]
                obtain ⟨-, hfind⟩ := catIndex_ok hi
                obtain ⟨kv, hkv, hkv2⟩ := catFind_mem hfind
                obtain ⟨pq, hpq, hpq0⟩ := hpc kv hkv
                rw [hkv2] at hpq
                obtain ⟨-, hq0⟩ := validate_true_quantity hv hq
                rw [hpq]
                exact mul_nonneg (by simpa using hpq0) hq0

theorem reportLines_split (total el : ℚ) (count : Nat) (errors : List String) :
    reportLines total el count errors =
      [sepLine, "SALES COMPUTATION RESULTS", sepLine, "",
       "Total Sales Processed: " ++ toString count,
       "Total Cost: " ++ format_currency total]
      ++ ("Execution Time: " ++ formatFixed 4 el ++ " seconds")
      :: ("" :: (if errors.isEmpty then ["No errors encountered during processing."]
          else [sepLine, "ERRORS FOUND: " ++ toString errors.length, sepLine]
            ++ errors.map (fun e => "  - " ++ e))) := by
  simp [reportLines]

theorem reportLines_time_only (total el1 el2 : ℚ) (count : Nat)
    (errors : List String) :
    (reportLines total el1 count errors).length =
      (reportLines total el2 count errors).length ∧
    ∀ i, i ≠ 6 →
      (reportLines total el1 count errors)[i]? =
        (reportLines total el2 count errors)[i]? := by
  rw [reportLines_split total el1, reportLines_split total el2]
  constructor
  · simp
  · intro i hi
    rcases Nat.lt_trichotomy i 6 with h | h | h
    · interval_cases i <;> simp
    · exact absurd h hi
    · obtain ⟨j, rfl⟩ : ∃ j, i = j + 7 := ⟨i - 7, by omega⟩
      simp

/-- C1: for every catalogue and sale list, whenever `compute_sales`
returns, the returned `totalCost` equals the sum of
`catalogue[Product] * Quantity` over exactly the records that pass all
validation checks (all four fields present, numeric non-negative
`Quantity`, product present in the catalogue); every record failing a
check has `contribution` equal to `0` by definition, so it adds exactly
`0` to the total. -/
theorem c1_totalCost_eq_sum_valid {pc : Catalogue} {sales : List PyVal}
    {t : ℚ} {e : List String}
    (h : compute_sales pc sales = .ok (t, e)) :
    t = specTotal pc 1 sales := by
  obtain ⟨h1, -, -⟩ := computeGo_ok h
  simpa using h1

theorem c1_witness :
    compute_sales [(.str "A", .int 10)]
      [.dict [("SALE_ID", .int 1), ("SALE_Date", .str "2024-01-01"),
        ("Product", .str "A"), ("Quantity", .int 3)]] = .ok (30, []) ∧
    (30 : ℚ) = specTotal [(.str "A", .int 10)] 1
      [.dict [("SALE_ID", .int 1), ("SALE_Date", .str "2024-01-01"),
        ("Product", .str "A"), ("Quantity", .int 3)]] := by
  have h : compute_sales [(.str "A", .int 10)]
      [.dict [("SALE_ID", .int 1), ("SALE_Date", .str "2024-01-01"),
        ("Product", .str "A"), ("Quantity", .int 3)]] = .ok (30, []) := by
    simp [compute_sales, computeGo, processSale, validate_sale_item,
      findMissingField, pyContains, dictGet, pySubscript, isNumber, toNum,
      requiredFields, catContains, catFind, catIndex, pyEq, numEq, hashable,
      pyMul, intVal, pyAddFloat]
    norm_num
  exact ⟨h, c1_totalCost_eq_sum_valid h⟩

/-- C2 counterexample: the claim that `totalCost` never decreases fails
as stated.  With catalogue price `-5` (prices are taken from the
catalogue unvalidated) and a valid sale of quantity `2`, the single pass
of `compute_sales` ends at `-10`, strictly below the initial total `0`:
the record made a negative contribution. -/
theorem c2_counterexample :
    compute_sales [(.str "A", .int (-5))]
      [.dict [("SALE_ID", .int 1), ("SALE_Date", .str "2024-01-01"),
        ("Product", .str "A"), ("Quantity", .int 2)]] = .ok (-10, []) ∧
    (-10 : ℚ) < 0 := by
  constructor
  · simp [compute_sales, computeGo, processSale, validate_sale_item,
      findMissingField, pyContains, dictGet, pySubscript, isNumber, toNum,
      requiredFields, catContains, catFind, catIndex, pyEq, numEq, hashable,
      pyMul, intVal, pyAddFloat]
    norm_num
  · norm_num

/-- C2 (amended): provided every catalogue price is a non-negative
number, the running total of `compute_sales` is monotonically
non-decreasing — no record makes a negative contribution at any step of
the pass. -/
theorem c2_total_monotone {pc : Catalogue} {idx : Nat} {sale : PyVal}
    {total t2 : ℚ} {errors e2 : List String}
    (hpc : pricesNonneg pc)
    (h : processSale pc idx sale total errors = .ok (t2, e2)) :
    total ≤ t2 := by
  obtain ⟨h1, -, -⟩ := processSale_ok h
  have h2 := @contribution_nonneg pc idx sale hpc
  linarith

theorem c2_witness :
    pricesNonneg [(.str "A", .int 5)] ∧
    processSale [(.str "A", .int 5)] 1
      (.dict [("SALE_ID", .int 1), ("SALE_Date", .str "2024-01-01"),
        ("Product", .str "A"), ("Quantity", .int 2)]) 0 [] = .ok (10, []) ∧
    (0 : ℚ) ≤ 10 := by
  have hpc : pricesNonneg [(.str "A", .int 5)] := by
    intro kv hkv
    simp only [List.mem_singleton] at hkv
    subst hkv
    exact ⟨5, by simp [toNum], by norm_num⟩
  have h : processSale [(.str "A", .int 5)] 1
      (.dict [("SALE_ID", .int 1), ("SALE_Date", .str "2024-01-01"),
        ("Product", .str "A"), ("Quantity", .int 2)]) 0 [] = .ok (10, []) := by
    simp [processSale, validate_sale_item, findMissingField, pyContains,
      dictGet, pySubscript, isNumber, toNum, requiredFields, catContains,
      catFind, catIndex, pyEq, numEq, hashable, pyMul, intVal, pyAddFloat]
    norm_num
  exact ⟨hpc, h, c2_total_monotone hpc h⟩

/-- C3 counterexample: `compute_sales` can raise.  A sale record that is
not a container (`42`) makes the membership test `"SALE_ID" not in sale`
raise `TypeError` outside the `try` block; with an unvalidated
non-numeric catalogue price (`null`), a perfectly well-formed record
reaches `price * quantity`, which raises `TypeError`; and a record whose
`Product` is an array makes the catalogue membership test raise
`TypeError` (unhashable).  In all three runs no `(totalCost, errors)`
pair is returned. -/
theorem c3_counterexample :
    compute_sales [] [.int 42] =
      .error (.typeError "argument of type 'int' is not iterable") ∧
    compute_sales [(.str "A", PyVal.none)]
      [.dict [("SALE_ID", .int 1), ("SALE_Date", .str "2024-01-01"),
        ("Product", .str "A"), ("Quantity", .int 2)]] =
      .error (.typeError
        "unsupported operand type(s) for *: 'NoneType' and 'int'") ∧
    compute_sales []
      [.dict [("SALE_ID", .int 1), ("SALE_Date", .str "2024-01-01"),
        ("Product", .list []), ("Quantity", .int 1)]] =
      .error (.typeError "unhashable type: 'list'") := by
  refine ⟨?_, ?_, ?_⟩
  · simp [compute_sales, computeGo, processSale, validate_sale_item,
      findMissingField, pyContains, requiredFields, pyTypeShort]
  · simp [compute_sales, computeGo, processSale, validate_sale_item,
      findMissingField, pyContains, dictGet, pySubscript, isNumber, toNum,
      requiredFields, catContains, catFind, catIndex, pyEq, numEq, hashable,
      pyMul, intVal, pyAddFloat, pyTypeShort]
    norm_num
  · simp [compute_sales, computeGo, processSale, validate_sale_item,
      findMissingField, pyContains, dictGet, pySubscript, isNumber, toNum,
      requiredFields, catContains, catFind, catIndex, pyEq, numEq, hashable,
      pyMul, intVal, pyAddFloat, pyTypeShort]
    norm_num

/-- C3 (amended): provided every catalogue price is a number and every
sale record is a container value — string, array, or JSON object — whose
`Product` value, when the record is an object carrying one, is hashable,
`compute_sales` raises no exception: it returns a `(totalCost, errors)`
pair for every such input, however malformed the individual records
otherwise are.  In particular a string or array record never raises: its
subscript `TypeError` is caught by `validate_sale_item`, which turns it
into a per-record `Invalid quantity value` error. -/
theorem c3_no_exception {pc : Catalogue} {sales : List PyVal}
    (hpc : pricesNumeric pc) (hs : ∀ s ∈ sales, saleWellShaped s) :
    ∃ t e, compute_sales pc sales = .ok (t, e) := by
  obtain ⟨⟨t, e⟩, h⟩ := computeGo_no_raise hpc hs
  exact ⟨t, e, h⟩

theorem c3_witness :
    pricesNumeric [(.str "A", .int 10)] ∧
    (∀ s ∈ [PyVal.dict [("SALE_ID", .int 1)],
       PyVal.list [.str "SALE_ID", .str "SALE_Date", .str "Product",
         .str "Quantity"],
       PyVal.dict [("Product", .str "Z"), ("SALE_ID", .int 1),
         ("SALE_Date", .str "d"), ("Quantity", .str "x")]],
      saleWellShaped s) ∧
    ∃ t e, compute_sales [(.str "A", .int 10)]
      [PyVal.dict [("SALE_ID", .int 1)],
       PyVal.list [.str "SALE_ID", .str "SALE_Date", .str "Product",
         .str "Quantity"],
       PyVal.dict [("Product", .str "Z"), ("SALE_ID", .int 1),
         ("SALE_Date", .str "d"), ("Quantity", .str "x")]] = .ok (t, e) := by
  have hpc : pricesNumeric [(.str "A", .int 10)] := by
    intro kv hkv
    simp only [List.mem_singleton] at hkv
    subst hkv
    simp [toNum]
  have hs : ∀ s ∈ [PyVal.dict [("SALE_ID", .int 1)],
      PyVal.list [.str "SALE_ID", .str "SALE_Date", .str "Product",
        .str "Quantity"],
      PyVal.dict [("Product", .str "Z"), ("SALE_ID", .int 1),
        ("SALE_Date", .str "d"), ("Quantity", .str "x")]],
      saleWellShaped s := by
    intro s hsm
    simp only [List.mem_cons, List.mem_singleton] at hsm
    rcases hsm with rfl | rfl | rfl | h
    · exact Or.inr (Or.inr ⟨_, rfl, by intro pv hpv; simp [dictGet] at hpv⟩)
    · exact Or.inr (Or.inl ⟨_, rfl⟩)
    · refine Or.inr (Or.inr ⟨_, rfl, ?_⟩)
      intro pv hpv
      simp [dictGet] at hpv
      subst hpv
      rfl
    · cases h
  exact ⟨hpc, hs, c3_no_exception hpc hs⟩

/-- C4: `processedCount` is the length of the input list, and whenever
`compute_sales` returns, the number of error strings plus the number of
successfully costed records equals that length — every record is either
costed or produces exactly one error. -/
theorem c4_counts {pc : Catalogue} {sales : List PyVal} {t : ℚ}
    {e : List String} (h : compute_sales pc sales = .ok (t, e)) :
    processedCount sales = sales.length ∧
    e.length + costedCount pc 1 sales = processedCount sales := by
  obtain ⟨-, h2, h3⟩ := computeGo_ok h
  refine ⟨rfl, ?_⟩
  rw [h2]
  simpa [processedCount] using h3

theorem c4_witness :
    compute_sales [(.str "A", .int 10)]
      [.dict [("SALE_ID", .int 1), ("SALE_Date", .str "d"),
        ("Product", .str "A"), ("Quantity", .int 3)],
       .dict [("SALE_ID", .int 2), ("SALE_Date", .str "d"),
        ("Product", .str "A")]] =
      .ok (30, ["Sale #2: Missing required field 'Quantity'"]) ∧
    processedCount [PyVal.dict [("SALE_ID", .int 1), ("SALE_Date", .str "d"),
        ("Product", .str "A"), ("Quantity", .int 3)],
       PyVal.dict [("SALE_ID", .int 2), ("SALE_Date", .str "d"),
        ("Product", .str "A")]] = 2 ∧
    1 + costedCount [(.str "A", .int 10)] 1
      [PyVal.dict [("SALE_ID", .int 1), ("SALE_Date", .str "d"),
        ("Product", .str "A"), ("Quantity", .int 3)],
       PyVal.dict [("SALE_ID", .int 2), ("SALE_Date", .str "d"),
        ("Product", .str "A")]] = 2 := by
  have h : compute_sales [(.str "A", .int 10)]
      [.dict [("SALE_ID", .int 1), ("SALE_Date", .str "d"),
        ("Product", .str "A"), ("Quantity", .int 3)],
       .dict [("SALE_ID", .int 2), ("SALE_Date", .str "d"),
        ("Product", .str "A")]] =
      .ok (30, ["Sale #2: Missing required field 'Quantity'"]) := by
    simp [compute_sales, computeGo, processSale, validate_sale_item,
      findMissingField, pyContains, dictGet, pySubscript, isNumber, toNum,
      requiredFields, catContains, catFind, catIndex, pyEq, numEq, hashable,
      pyMul, intVal, pyAddFloat]
    norm_num
    rfl
  obtain ⟨g1, g2⟩ := c4_counts h
  exact ⟨h, g1, by simpa using g2⟩

/-- C5: catalogue building is last-write-wins — whenever
`build_price_catalogue` returns a catalogue, looking any title up in it
yields the price of the last entry in input order that has both a
`title` and a `price` field and whose title equals the one sought; and
an entry missing either field is skipped without error, leaving the
catalogue unchanged by that entry. -/
theorem c5_last_write_wins :
    (∀ products cat, build_price_catalogue products = .ok cat →
      ∀ t, catFind cat t = findLastPrice products t) ∧
    (∀ c fields, (dictGet fields "title" = Option.none ∨
        dictGet fields "price" = Option.none) →
      buildStep c (.dict fields) = .ok c) := by
  constructor
  · intro products cat h t
    rw [buildGo_ok h t]
    cases hf : findLastPrice products t <;> simp [catFind]
  · intro c fields hmiss
    unfold buildStep
    rcases hmiss with hm | hm
    · simp [pyContains, dictGet_any, hm]
    · cases ht : dictGet fields "title" with
      | none => simp [pyContains, dictGet_any, ht]
      | some t0 => simp [pyContains, dictGet_any, ht, hm]

theorem c5_witness :
    build_price_catalogue
      [.dict [("title", .str "A"), ("price", .int 1)],
       .dict [("title", .str "B")],
       .dict [("title", .str "A"), ("price", .int 2)]] =
      .ok [(.str "A", .int 2)] ∧
    catFind [(.str "A", .int 2)] (.str "A") = some (.int 2) ∧
    findLastPrice
      [.dict [("title", .str "A"), ("price", .int 1)],
       .dict [("title", .str "B")],
       .dict [("title", .str "A"), ("price", .int 2)]] (.str "A") =
      some (.int 2) ∧
    buildStep [] (.dict [("title", .str "B")]) = .ok [] := by
  have h : build_price_catalogue
      [.dict [("title", .str "A"), ("price", .int 1)],
       .dict [("title", .str "B")],
       .dict [("title", .str "A"), ("price", .int 2)]] =
      .ok [(.str "A", .int 2)] := by
    simp [build_price_catalogue, buildGo, buildStep, pyContains, dictGet,
      pySubscript, hashable, catSet, pyEq, numEq, toNum]
  have h2 := (c5_last_write_wins.1 _ _ h (.str "A"))
  refine ⟨h, ?_, ?_, ?_⟩
  · simp [catFind, pyEq]
  · rw [← h2]
    simp [catFind, pyEq]
  · exact c5_last_write_wins.2 [] [("title", .str "B")] (by right; simp [dictGet])

/-- C6: whenever `compute_sales` returns, its error list is exactly the
per-record error strings in input order — each of the form
`"Sale #{idx}: {reason}"` with `idx` the 1-based position of the record
— and an invalid record leaves the running total unchanged while
processing continues with the remaining records. -/
theorem c6_error_format_order {pc : Catalogue} {sales : List PyVal} {t : ℚ}
    {e : List String} (h : compute_sales pc sales = .ok (t, e)) :
    e = specErrors pc 1 sales ∧
    (∀ idx sale total errors msg,
      validate_sale_item sale idx = .ok (false, msg) →
      processSale pc idx sale total errors =
        .ok (total, errors ++ ["Sale #" ++ toString idx ++ ": " ++ msg])) := by
  obtain ⟨-, h2, -⟩ := computeGo_ok h
  exact ⟨by simpa using h2,
    fun idx sale total errors msg hv => processSale_invalid total errors hv⟩

theorem c6_witness :
    (["Sale #2: Missing required field 'Quantity'",
      "Sale #3: Invalid quantity value: "
        ++ "list indices must be integers or slices, not str"] =
      specErrors [(.str "A", .int 10)] 1
        [PyVal.dict [("SALE_ID", .int 1), ("SALE_Date", .str "d"),
          ("Product", .str "A"), ("Quantity", .int 3)],
         PyVal.dict [("SALE_ID", .int 2), ("SALE_Date", .str "d"),
          ("Product", .str "A")],
         PyVal.list [.str "SALE_ID", .str "SALE_Date", .str "Product",
          .str "Quantity"]]) ∧
    processSale [(.str "A", .int 10)] 2
      (.dict [("SALE_ID", .int 2), ("SALE_Date", .str "d"),
        ("Product", .str "A")]) 30 [] =
      .ok (30, ["Sale #" ++ toString 2 ++ ": "
        ++ "Missing required field 'Quantity'"]) := by
  have h : compute_sales [(.str "A", .int 10)]
      [.dict [("SALE_ID", .int 1), ("SALE_Date", .str "d"),
        ("Product", .str "A"), ("Quantity", .int 3)],
       .dict [("SALE_ID", .int 2), ("SALE_Date", .str "d"),
        ("Product", .str "A")],
       .list [.str "SALE_ID", .str "SALE_Date", .str "Product",
        .str "Quantity"]] =
      .ok (30, ["Sale #2: Missing required field 'Quantity'",
        "Sale #3: Invalid quantity value: "
          ++ "list indices must be integers or slices, not str"]) := by
    simp [compute_sales, computeGo, processSale, validate_sale_item,
      findMissingField, pyContains, dictGet, pySubscript, isNumber, toNum,
      requiredFields, catContains, catFind, catIndex, pyEq, numEq, hashable,
      pyMul, intVal, pyAddFloat]
    norm_num
    constructor <;> rfl
  obtain ⟨g1, g2⟩ := c6_error_format_order h
  refine ⟨by rw [← g1], ?_⟩
  exact g2 2 (.dict [("SALE_ID", .int 2), ("SALE_Date", .str "d"),
    ("Product", .str "A")]) 30 [] "Missing required field 'Quantity'"
    (by simp [validate_sale_item, findMissingField, pyContains, dictGet,
      requiredFields])

/-- C7: for every sale record (a JSON object) missing at least one of
the four required fields, `validate_sale_item` reports Invalid with a
reason naming exactly the first missing field in the fixed check order
`SALE_ID`, `SALE_Date`, `Product`, `Quantity`, with message text
`Missing required field '{field}'`. -/
theorem c7_first_missing_field (fields : List (String × PyVal)) (n : Nat)
    (f : String)
    (h : requiredFields.find? (fun g => (dictGet fields g).isNone) = some f) :
    validate_sale_item (.dict fields) n =
      .ok (false, "Missing required field '" ++ f ++ "'") :=
  validate_dict_missing fields n f h

theorem c7_witness :
    List.find? (fun g => (dictGet [("SALE_ID", PyVal.int 1),
      ("SALE_Date", PyVal.str "d"), ("Product", PyVal.str "A")] g).isNone)
      requiredFields = some "Quantity" ∧
    validate_sale_item (.dict [("SALE_ID", PyVal.int 1),
      ("SALE_Date", PyVal.str "d"), ("Product", PyVal.str "A")]) 1 =
      .ok (false, "Missing required field 'Quantity'") := by
  have hf : List.find? (fun g => (dictGet [("SALE_ID", PyVal.int 1),
      ("SALE_Date", PyVal.str "d"), ("Product", PyVal.str "A")] g).isNone)
      requiredFields = some "Quantity" := by decide
  have h2 := c7_first_missing_field [("SALE_ID", PyVal.int 1),
    ("SALE_Date", PyVal.str "d"), ("Product", PyVal.str "A")] 1 "Quantity" hf
  exact ⟨hf, by rw [h2]; rfl⟩

/-- C8: the file report is a pure function of `(totalCost, salesCount,
errors)` plus the elapsed time, and two reports rendered from identical
`(totalCost, salesCount, errors)` have the same number of lines and
agree on every line except the `Execution Time` line (index 6) — so two
runs on identical inputs produce byte-identical `SalesResults.txt`
content except for that field. -/
theorem c8_report_deterministic (total el1 el2 : ℚ) (count : Nat)
    (errors : List String) :
    (reportLines total el1 count errors).length =
      (reportLines total el2 count errors).length ∧
    ∀ i, i ≠ 6 →
      (reportLines total el1 count errors)[i]? =
        (reportLines total el2 count errors)[i]? :=
  reportLines_time_only total el1 el2 count errors

theorem c8_witness :
    (0 : Nat) ≠ 6 ∧
    (reportLines 30 (1 / 2) 1 [])[0]? = (reportLines 30 (3 / 4) 1 [])[0]? :=
  ⟨by decide, (c8_report_deterministic 30 (1 / 2) (3 / 4) 1 []).2 0 (by decide)⟩

/-- C9: a record with all four fields whose `Quantity` is a JSON boolean
is classified Valid — Python's `isinstance(quantity, (int, float))`
accepts `bool`, a subclass of `int` — and when its product is in the
catalogue with a numeric price the pass adds `price * 1` for `true` and
`price * 0` for `false` to the total instead of reporting a
non-numeric-quantity error. -/
theorem c9_bool_quantity (fields : List (String × PyVal)) (n : Nat) (b : Bool)
    (pn : PyVal)
    (h1 : (dictGet fields "SALE_ID").isSome = true)
    (h2 : (dictGet fields "SALE_Date").isSome = true)
    (h3 : dictGet fields "Product" = some pn)
    (h4 : dictGet fields "Quantity" = some (.bool b)) :
    validate_sale_item (.dict fields) n = .ok (true, "") ∧
    ∀ (pc : Catalogue) (pv : PyVal) (p : ℚ) (total : ℚ) (errors : List String),
      catIndex pc pn = .ok pv → toNum pv = some p →
      processSale pc n (.dict fields) total errors =
        .ok (total + p * (if b then 1 else 0), errors) := by
  have hn1 : (dictGet fields "SALE_ID").isNone = false := by
    cases hx : dictGet fields "SALE_ID" <;> simp_all
  have hn2 : (dictGet fields "SALE_Date").isNone = false := by
    cases hx : dictGet fields "SALE_Date" <;> simp_all
  have hn3 : (dictGet fields "Product").isNone = false := by rw [h3]; rfl
  have hn4 : (dictGet fields "Quantity").isNone = false := by rw [h4]; rfl
  have hfind : requiredFields.find? (fun g => (dictGet fields g).isNone) =
      Option.none := by
    rw [List.find?_eq_none]
    intro g hg
    simp only [requiredFields, List.mem_cons, List.mem_singleton] at hg
    rcases hg with rfl | rfl | rfl | rfl | hg2
    · simp [hn1]
    · simp [hn2]
    · simp [hn3]
    · simp [hn4]
    · simp at hg2
  have hval : validate_sale_item (.dict fields) n = .ok (true, "") := by
    rw [validate_dict_allPresent fields n (.bool b) hfind h4]
    cases b <;> norm_num [isNumber, toNum]
  refine ⟨hval, ?_⟩
  intro pc pv p total errors hidx hp
  obtain ⟨hhash, hfindc⟩ := catIndex_ok hidx
  unfold processSale
  rw [hval]
  simp only [if_true]
  simp only [pySubscript, h3, h4]
  simp only [catContains, hhash, if_true, hfindc, Option.isSome_some]
  obtain ⟨cost, hcost, hcn⟩ := pyMul_numeric hp
    (show toNum (.bool b) = some (if b then 1 else 0) from rfl)
  simp [hidx, hcost, pyAddFloat, hcn]

theorem c9_witness :
    validate_sale_item (.dict [("SALE_ID", PyVal.int 1),
      ("SALE_Date", PyVal.str "d"), ("Product", PyVal.str "A"),
      ("Quantity", PyVal.bool true)]) 1 = .ok (true, "") ∧
    processSale [(.str "A", .int 10)] 1
      (.dict [("SALE_ID", PyVal.int 1), ("SALE_Date", PyVal.str "d"),
        ("Product", PyVal.str "A"), ("Quantity", PyVal.bool true)]) 0 [] =
      .ok (0 + 10 * (if true then 1 else 0), []) := by
  obtain ⟨w1, w2⟩ := c9_bool_quantity [("SALE_ID", PyVal.int 1),
    ("SALE_Date", PyVal.str "d"), ("Product", PyVal.str "A"),
    ("Quantity", PyVal.bool true)] 1 true (PyVal.str "A")
    (by decide) (by decide) rfl rfl
  exact ⟨w1, w2 [(.str "A", .int 10)] (.int 10) 10 0 []
    (by simp [catIndex, catFind, pyEq, hashable])
    (by norm_num [toNum])⟩

/-- C10: a record with all four fields, `Quantity` exactly `0`, and a
product present in the catalogue is classified Valid — the negativity
check is strict, rejecting only `Quantity < 0` — produces no error
string, and whenever its processing step completes it leaves the running
total and the error list unchanged (it contributes exactly `0`). -/
theorem c10_zero_quantity (fields : List (String × PyVal)) (n : Nat)
    (pn : PyVal) (pc : Catalogue)
    (h1 : (dictGet fields "SALE_ID").isSome = true)
    (h2 : (dictGet fields "SALE_Date").isSome = true)
    (h3 : dictGet fields "Product" = some pn)
    (h4 : dictGet fields "Quantity" = some (.int 0))
    (hfound : catContains pc pn = .ok true) :
    validate_sale_item (.dict fields) n = .ok (true, "") ∧
    saleError pc n (.dict fields) = Option.none ∧
    ∀ total errors t2 e2,
      processSale pc n (.dict fields) total errors = .ok (t2, e2) →
      t2 = total ∧ e2 = errors := by
  have hn1 : (dictGet fields "SALE_ID").isNone = false := by
    cases hx : dictGet fields "SALE_ID" <;> simp_all
  have hn2 : (dictGet fields "SALE_Date").isNone = false := by
    cases hx : dictGet fields "SALE_Date" <;> simp_all
  have hn3 : (dictGet fields "Product").isNone = false := by rw [h3]; rfl
  have hn4 : (dictGet fields "Quantity").isNone = false := by rw [h4]; rfl
  have hfind : requiredFields.find? (fun g => (dictGet fields g).isNone) =
      Option.none := by
    rw [List.find?_eq_none]
    intro g hg
    simp only [requiredFields, List.mem_cons, List.mem_singleton] at hg
    rcases hg with rfl | rfl | rfl | rfl | hg2
    · simp [hn1]
    · simp [hn2]
    · simp [hn3]
    · simp [hn4]
    · simp at hg2
  have hval : validate_sale_item (.dict fields) n = .ok (true, "") := by
    rw [validate_dict_allPresent fields n (.int 0) hfind h4]
    norm_num [isNumber, toNum]
  have hse : saleError pc n (.dict fields) = Option.none := by
    unfold saleError
    rw [hval]
    simp [pySubscript, h3, hfound]
  have hcontrib : contribution pc n (.dict fields) = 0 := by
    unfold contribution
    rw [hval]
    simp only [pySubscript, h3, h4, hfound]
    cases hi : catIndex pc pn with
    | error e => simp
    | ok price => simp [toNum]
  refine ⟨hval, hse, ?_⟩
  intro total errors t2 e2 h
  obtain ⟨g1, g2, -⟩ := processSale_ok h
  rw [hcontrib] at g1
  rw [hse] at g2
  exact ⟨by simpa using g1, by simpa using g2⟩

theorem c10_witness :
    validate_sale_item (.dict [("SALE_ID", PyVal.int 1),
      ("SALE_Date", PyVal.str "d"), ("Product", PyVal.str "A"),
      ("Quantity", PyVal.int 0)]) 1 = .ok (true, "") ∧
    saleError [(.str "A", .int 10)] 1
      (.dict [("SALE_ID", PyVal.int 1), ("SALE_Date", PyVal.str "d"),
        ("Product", PyVal.str "A"), ("Quantity", PyVal.int 0)]) =
      Option.none ∧
    processSale [(.str "A", .int 10)] 1
      (.dict [("SALE_ID", PyVal.int 1), ("SALE_Date", PyVal.str "d"),
        ("Product", PyVal.str "A"), ("Quantity", PyVal.int 0)]) 5 ["x"] =
      .ok (5, ["x"]) := by
  obtain ⟨w1, w2, w3⟩ := c10_zero_quantity [("SALE_ID", PyVal.int 1),
    ("SALE_Date", PyVal.str "d"), ("Product", PyVal.str "A"),
    ("Quantity", PyVal.int 0)] 1 (PyVal.str "A") [(.str "A", .int 10)]
    (by decide) (by decide) rfl rfl
    (by simp [catContains, catFind, pyEq, hashable])
  refine ⟨w1, w2, ?_⟩
  simp [processSale, validate_sale_item, findMissingField, pyContains,
    dictGet, pySubscript, isNumber, toNum, requiredFields, catContains,
    catFind, catIndex, pyEq, numEq, hashable, pyMul, intVal, pyAddFloat]
